import Mathlib

/-!
Shallow embedding of the generic SQL repository engine
(`pkg/repository/repository.go` of modiamir/sqlrepo) and proofs about it.

The engine synthesizes CRUD statements from an entity type's reflected
shape (struct fields with `db` tags) and executes them against a SQL
backend.  We embed:

* Go struct fields and their `db:"col,opts"` tags (`GoField`, `tagParts`),
  with faithful re-implementations of `strings.Split` on `","` and
  `strings.TrimSpace`;
* dynamic Go values (`GoValue`): signed 64-bit integers (stored wrapped
  into the `int64` range, mirroring Go's wrapping arithmetic) and strings;
* the SQL backend boundary (`Backend`): `Select`, `Exec` (returning a
  result whose `LastInsertId` may fail) and `Get`, each consuming a
  `Statement` (query text plus positional arguments);
* every repository operation as a pure function returning the list of
  statements it issued together with an `Outcome` (ok / returned error /
  runtime panic, the latter for `reflect.Value.SetInt` misuse).
-/

namespace SqlRepo

/-- A dynamic Go value as it appears in an entity struct field: either a
signed 64-bit integer field or a string field. -/
inductive GoValue where
  | int (n : Int)
  | str (s : String)
deriving DecidableEq, Repr

/-- `true` exactly when the value has Go kind `int64` (a signed-integer
kind), the only kind `reflect.Value.SetInt` accepts. -/
def GoValue.isIntKind : GoValue → Bool
  | .int _ => true
  | .str _ => false

/-- One struct field of an entity type: its Go field name and the raw
text of its `db` struct tag. -/
structure GoField where
  fieldName : String
  dbTag : String
deriving DecidableEq, Repr

/-- `strings.Split` on the separator `","`: splits around every comma,
always returning at least one (possibly empty) piece. -/
def splitComma : List Char → List (List Char)
  | [] => [[]]
  | c :: cs =>
    if c = ',' then [] :: splitComma cs
    else
      match splitComma cs with
      | p :: ps => (c :: p) :: ps
      | [] => [[c]]

/-- `strings.TrimSpace`: drop whitespace from both ends. -/
def trimChars (l : List Char) : List Char :=
  ((l.dropWhile Char.isWhitespace).reverse.dropWhile Char.isWhitespace).reverse

/-- `strings.TrimSpace` lifted to `String`. -/
def goTrim (s : String) : String := ⟨trimChars s.data⟩

/-- The `db` tag split on `","` with every part trimmed, as computed at
the top of `SaveAll`'s field loop. -/
def tagParts (f : GoField) : List String :=
  (splitComma f.dbTag.data).map fun cs => goTrim ⟨cs⟩

/-- The storage column name of a field: the first part of its `db` tag. -/
def columnName (f : GoField) : String := (tagParts f).headD ""

/-- Whether this field's own tag marks it auto-increment:
`len(tagParts) > 1 && slices.Contains(tagParts, "autoincrement")`. -/
def fieldAuto (f : GoField) : Bool :=
  decide ((tagParts f).length > 1) && (tagParts f).contains "autoincrement"

/-- `strings.Join(elems, sep)`. -/
def goJoin (sep : String) : List String → String
  | [] => ""
  | [s] => s
  | s :: rest => s ++ sep ++ goJoin sep rest

/-- `strings.TrimSuffix(s, suffix)`: drop `suffix` from the end of `s`
when present, otherwise return `s` unchanged. -/
def trimSuffix (s suffix : String) : String :=
  if suffix.data.isSuffixOf s.data then
    ⟨s.data.take (s.data.length - suffix.data.length)⟩
  else s

/-- Two's-complement wrap of a mathematical integer into the `int64`
range, the effect of Go's wrapping signed addition. -/
def wrap64 (n : Int) : Int := (n + 2 ^ 63) % 2 ^ 64 - 2 ^ 63

/-- A parameterized SQL statement: query text plus positional arguments. -/
structure Statement where
  query : String
  args : List GoValue
deriving DecidableEq, Repr

/-- The value of `*sql.Result.LastInsertId()`: an `int64` or an error. -/
structure ExecResult where
  lastInsertId : Except String Int
deriving Repr

/-- The SQL backend boundary (`sqlx.DB`): row queries (`Select`),
statement execution (`Exec`) and scalar queries (`Get`).  Responses are
arbitrary, so theorems quantify over backend behaviour. -/
structure Backend where
  runSelect : Statement → Except String (List (List GoValue))
  runExec : Statement → Except String ExecResult
  runGet : Statement → Except String Int

/-- An entity instance: one dynamic value per struct field, aligned with
the entity type's field list. -/
abbrev GoEntity := List GoValue

/-- A Go type's method names, split by receiver kind, to model Go's
method-set rule: the method set of `*T` contains both lists, the method
set of `T` only the value-receiver ones. -/
structure DynType where
  valueMethods : List String
  ptrMethods : List String
deriving DecidableEq, Repr

/-- The method set of the value type `T`. -/
def methodSetValue (t : DynType) : List String := t.valueMethods

/-- The method set of the pointer type `*T`. -/
def methodSetPtr (t : DynType) : List String := t.valueMethods ++ t.ptrMethods

/-- Whether a method set satisfies the `Entity[ID]` interface
(`GetID`, `GetTableName`, `ToMap`): the runtime test behind
`any(x).(Entity[ID])`. -/
def implementsEntity (ms : List String) : Bool :=
  ms.contains "GetID" && ms.contains "GetTableName" && ms.contains "ToMap"

/-- The compile-time metadata of an entity type `E`: its table name, its
reflected struct fields, its dynamic type (for interface casts) and its
`GetID` method. -/
structure EntityType where
  tableName : String
  fields : List GoField
  dyn : DynType
  getID : GoEntity → GoValue

/-- The observable result of a repository call: a returned value, a
returned Go `error` (its message), or a runtime panic (its message). -/
inductive Outcome (α : Type) where
  | ok (a : α)
  | err (msg : String)
  | panic (msg : String)
deriving Repr, DecidableEq

/-- `true` on `Outcome.panic`. -/
def Outcome.isPanic {α : Type} : Outcome α → Bool
  | .panic _ => true
  | _ => false

/-- The message `fmt.Errorf("entity not found")`. -/
def notFoundMsg : String := "entity not found"

/-- The message `fmt.Errorf("entity does not implement the Entity interface")`. -/
def notEntityMsg : String := "entity does not implement the Entity interface"

/-- The accumulator of `SaveAll`'s first field loop: the column and
placeholder lists plus the `idAutoIncrement` flag and `idField` variable. -/
structure ScanState where
  columns : List String
  placeholders : List String
  idAutoIncrement : Bool
  idField : GoField
deriving DecidableEq, Repr

/-- One iteration of `SaveAll`'s first field loop (repository.go:96-116):
fields whose column name is `id` record auto-increment status and the id
field, and are skipped when auto-increment; every other field contributes
its column name and a `?` placeholder. -/
def scanStep (st : ScanState) (f : GoField) : ScanState :=
  let parts := tagParts f
  if 0 < parts.length then
    let cn := parts.headD ""
    if cn = "id" then
      let auto := fieldAuto f
      let st1 : ScanState := { st with idAutoIncrement := auto, idField := f }
      if auto then st1
      else { st1 with columns := st1.columns ++ [cn],
                      placeholders := st1.placeholders ++ ["?"] }
    else { st with columns := st.columns ++ [cn],
                   placeholders := st.placeholders ++ ["?"] }
  else st

/-- Initial loop state: empty lists, `false`, and the zero
`reflect.StructField` (whose `Name` is the empty string). -/
def initScan : ScanState := ⟨[], [], false, ⟨"", ""⟩⟩

/-- `SaveAll`'s first field loop over the whole field list. -/
def scanFields (fs : List GoField) : ScanState := fs.foldl scanStep initScan

/-- Column name as recomputed in `SaveAll`'s values loop
(repository.go:128): `strings.TrimSpace(tagParts[0])` where the parts are
not trimmed elementwise first. -/
def columnName2 (f : GoField) : String :=
  goTrim ⟨(splitComma f.dbTag.data).headD []⟩

/-- `SaveAll`'s values loop body for one entity (repository.go:122-133):
every field's value in field order, skipping the `id` column exactly when
the final `idAutoIncrement` flag is set. -/
def rowValues (auto : Bool) : List GoField → GoEntity → List GoValue
  | [], _ => []
  | _ :: _, [] => []
  | f :: fs, v :: vs =>
    if columnName2 f = "id" ∧ auto = true then rowValues auto fs vs
    else v :: rowValues auto fs vs

/-- `n` concatenated copies of a string, as produced by appending one
copy per loop iteration. -/
def concatN : Nat → String → String
  | 0, _ => ""
  | n + 1, s => s ++ concatN n s

/-- The INSERT statement text synthesized by `SaveAll`
(repository.go:119-138): header, joined column list, one
`(placeholders),` group per entity, then `strings.TrimSuffix(query, ",")`. -/
def insertQuery (table : String) (columns placeholders : List String) (n : Nat) : String :=
  trimSuffix
    ("INSERT INTO " ++ table ++ " (" ++ goJoin "," columns ++ ") VALUES " ++
      concatN n ("(" ++ goJoin "," placeholders ++ "),")) ","

/-- `reflect.ValueOf(entity).Elem().FieldByName(name).SetInt(n)`: replace
the first field whose Go field name is `name` by the wrapped integer; a
non-integer field kind or an absent name panics instead of returning. -/
def setIntFields (name : String) (n : Int) : List GoField → GoEntity → Outcome GoEntity
  | [], _ => .panic "reflect: call of reflect.Value.SetInt on zero Value"
  | _ :: _, [] => .panic "reflect: call of reflect.Value.SetInt on zero Value"
  | f :: fs, v :: vs =>
    if f.fieldName = name then
      match v with
      | .int _ => .ok (.int (wrap64 n) :: vs)
      | .str _ => .panic "reflect: call of reflect.Value.SetInt on string Value"
    else
      match setIntFields name n fs vs with
      | .ok vs2 => .ok (v :: vs2)
      | .err m => .err m
      | .panic m => .panic m

/-- The back-fill loop (repository.go:153-156): entity at position `i`
(counting from `start`) gets its id field set to `lastInsertID + int64(i)`
computed with Go's wrapping `int64` addition. -/
def backfillEntities (name : String) (lid : Int) (fields : List GoField) :
    List GoEntity → Nat → Outcome (List GoEntity)
  | [], _ => .ok []
  | e :: es, i =>
    match setIntFields name (lid + i) fields e with
    | .ok e2 =>
      match backfillEntities name lid fields es (i + 1) with
      | .ok rest => .ok (e2 :: rest)
      | .err m => .err m
      | .panic m => .panic m
    | .err m => .err m
    | .panic m => .panic m

/-- The single multi-row INSERT statement `SaveAll` synthesizes for a
given entity list: the query from the scanned columns and placeholders,
the arguments from every entity's row values in field order. -/
def saveAllStatement (et : EntityType) (entities : List GoEntity) : Statement :=
  let sc := scanFields et.fields
  ⟨insertQuery et.tableName sc.columns sc.placeholders entities.length,
   entities.flatMap (rowValues sc.idAutoIncrement et.fields)⟩

/-- `SaveAll` (repository.go:72-160): empty input is a no-op success;
then the interface cast check, the field scan, the multi-row INSERT
build and execution, and the auto-increment back-fill.  Returns the
issued statements and the final entity list (Go mutates in place). -/
def SaveAll (et : EntityType) (b : Backend) (entities : List GoEntity) :
    List Statement × Outcome (List GoEntity) :=
  if entities.length = 0 then ([], .ok entities)
  else if !implementsEntity (methodSetPtr et.dyn) then ([], .err notEntityMsg)
  else
    let sc := scanFields et.fields
    let stmt : Statement := saveAllStatement et entities
    match b.runExec stmt with
    | .error e => ([stmt], .err e)
    | .ok res =>
      if sc.idAutoIncrement then
        match res.lastInsertId with
        | .error e => ([stmt], .err e)
        | .ok lid =>
          match backfillEntities sc.idField.fieldName lid et.fields entities 0 with
          | .ok out => ([stmt], .ok out)
          | .err m => ([stmt], .err m)
          | .panic m => ([stmt], .panic m)
      else ([stmt], .ok entities)

/-- `Save` (repository.go:68-70): `SaveAll` on the singleton list. -/
def Save (et : EntityType) (b : Backend) (entity : GoEntity) :
    List Statement × Outcome (List GoEntity) :=
  SaveAll et b [entity]

/-- The query text of `FindAllByID` (repository.go:60): one `?` per id. -/
def findAllByIDQuery (table : String) (n : Nat) : String :=
  "SELECT * FROM " ++ table ++ " WHERE id IN (" ++ goJoin "," (List.replicate n "?") ++ ")"

/-- `FindAllByID` (repository.go:49-66): select with an `IN` clause of
one placeholder per id, the ids bound positionally. -/
def FindAllByID (et : EntityType) (b : Backend) (ids : List GoValue) :
    List Statement × Outcome (List GoEntity) :=
  let stmt : Statement := ⟨findAllByIDQuery et.tableName ids.length, ids⟩
  match b.runSelect stmt with
  | .ok es => ([stmt], .ok es)
  | .error e => ([stmt], .err e)

/-- `FindByID` (repository.go:36-47): first element of
`FindAllByID([id])`, or the not-found error on an empty result. -/
def FindByID (et : EntityType) (b : Backend) (id : GoValue) :
    List Statement × Outcome GoEntity :=
  match FindAllByID et b [id] with
  | (tr, .ok []) => (tr, .err notFoundMsg)
  | (tr, .ok (e :: _)) => (tr, .ok e)
  | (tr, .err m) => (tr, .err m)
  | (tr, .panic m) => (tr, .panic m)

/-- `ExistsByID` (repository.go:211-222): succeeds iff `FindAllByID([id])`
is non-empty; existence is reported only through the error channel. -/
def ExistsByID (et : EntityType) (b : Backend) (id : GoValue) :
    List Statement × Outcome Unit :=
  match FindAllByID et b [id] with
  | (tr, .ok []) => (tr, .err notFoundMsg)
  | (tr, .ok (_ :: _)) => (tr, .ok ())
  | (tr, .err m) => (tr, .err m)
  | (tr, .panic m) => (tr, .panic m)

/-- `FindAll` (repository.go:23-34). -/
def FindAll (et : EntityType) (b : Backend) :
    List Statement × Outcome (List GoEntity) :=
  let stmt : Statement := ⟨"SELECT * FROM " ++ et.tableName, []⟩
  match b.runSelect stmt with
  | .ok es => ([stmt], .ok es)
  | .error e => ([stmt], .err e)

/-- The query text of `DeleteByIDs` (repository.go:176). -/
def deleteByIDsQuery (table : String) (n : Nat) : String :=
  "DELETE FROM " ++ table ++ " WHERE id IN (" ++ goJoin "," (List.replicate n "?") ++ ")"

/-- `DeleteByIDs` (repository.go:166-182). -/
def DeleteByIDs (et : EntityType) (b : Backend) (ids : List GoValue) :
    List Statement × Outcome Unit :=
  let stmt : Statement := ⟨deleteByIDsQuery et.tableName ids.length, ids⟩
  match b.runExec stmt with
  | .ok _ => ([stmt], .ok ())
  | .error e => ([stmt], .err e)

/-- `DeleteByID` (repository.go:162-164): `DeleteByIDs` on `[id]`. -/
def DeleteByID (et : EntityType) (b : Backend) (id : GoValue) :
    List Statement × Outcome Unit :=
  DeleteByIDs et b [id]

/-- `DeleteAll` (repository.go:184-193). -/
def DeleteAll (et : EntityType) (b : Backend) : List Statement × Outcome Unit :=
  let stmt : Statement := ⟨"DELETE FROM " ++ et.tableName, []⟩
  match b.runExec stmt with
  | .ok _ => ([stmt], .ok ())
  | .error e => ([stmt], .err e)

/-- The id-collection loop of `DeleteEntities` (repository.go:196-203):
cast each entity to the `Entity` interface and take its `GetID()`. -/
def collectIDs (et : EntityType) : List GoEntity → Outcome (List GoValue)
  | [] => .ok []
  | e :: es =>
    if implementsEntity (methodSetPtr et.dyn) then
      match collectIDs et es with
      | .ok ids => .ok (et.getID e :: ids)
      | .err m => .err m
      | .panic m => .panic m
    else .err notEntityMsg

/-- `DeleteEntities` (repository.go:195-205): collect every entity's id
and delegate to `DeleteByIDs`. -/
def DeleteEntities (et : EntityType) (b : Backend) (entities : List GoEntity) :
    List Statement × Outcome Unit :=
  match collectIDs et entities with
  | .ok ids => DeleteByIDs et b ids
  | .err m => ([], .err m)
  | .panic m => ([], .panic m)

/-- `DeleteEntity` (repository.go:207-209): `DeleteEntities` on `[entity]`. -/
def DeleteEntity (et : EntityType) (b : Backend) (entity : GoEntity) :
    List Statement × Outcome Unit :=
  DeleteEntities et b [entity]

/-- The `Pagination` request value (contract.go:24-27). -/
structure Pagination where
  limit : Int
  offset : Int
deriving DecidableEq, Repr

/-- The `PaginatedResult` value (contract.go:29-33). -/
structure PaginatedResult where
  pagination : Pagination
  totalCount : Int
  results : List GoEntity
deriving DecidableEq, Repr

/-- The page query text of `FindAllPaginated` (repository.go:229). -/
def paginatedQuery (table : String) : String :=
  "SELECT * FROM " ++ table ++ " LIMIT ? OFFSET ?"

/-- The count query text of `FindAllPaginated` (repository.go:236). -/
def countQuery (table : String) : String :=
  "SELECT COUNT(*) FROM " ++ table

/-- `FindAllPaginated` (repository.go:224-247): the page select, then a
separate count query, composed into a `PaginatedResult` echoing the
request. -/
def FindAllPaginated (et : EntityType) (b : Backend) (p : Pagination) :
    List Statement × Outcome PaginatedResult :=
  let stmt1 : Statement := ⟨paginatedQuery et.tableName, [.int p.limit, .int p.offset]⟩
  match b.runSelect stmt1 with
  | .error e => ([stmt1], .err e)
  | .ok entities =>
    let stmt2 : Statement := ⟨countQuery et.tableName, []⟩
    match b.runGet stmt2 with
    | .error e => ([stmt1, stmt2], .err e)
    | .ok cnt => ([stmt1, stmt2], .ok ⟨p, cnt, entities⟩)

/-- The test fixture `SampleEntity` (test_utils.go:10-25): an `int64` id
tagged `db:"id,autoincrement"` and a string name tagged `db:"name"`. -/
def sampleFields : List GoField := [⟨"Id", "id,autoincrement"⟩, ⟨"Name", "name"⟩]

/-- `SampleEntity`'s method set: all three `Entity` methods have value
receivers. -/
def sampleDyn : DynType := ⟨["GetID", "GetTableName", "ToMap"], []⟩

/-- The entity type of `SampleEntity`: table `sample_entities`, the two
fields above, and `GetID` returning the `Id` field. -/
def SampleEntityType : EntityType :=
  ⟨"sample_entities", sampleFields, sampleDyn, fun e => e.headD (.int 0)⟩

/-- A backend whose `Exec` always succeeds reporting `lid` as the last
inserted id. -/
def okBackend (lid : Int) : Backend :=
  ⟨fun _ => .ok [], fun _ => .ok ⟨.ok lid⟩, fun _ => .ok 0⟩

/-- A backend whose `Select` always returns the given rows. -/
def selBackend (rows : List GoEntity) : Backend :=
  ⟨fun _ => .ok rows, fun _ => .error "unsupported", fun _ => .ok 0⟩

/-- Modelled from the spec: the external relational backend (§6) for a
single table holding `rows`, answering `LIMIT ? OFFSET ?` page queries by
slicing and `SELECT COUNT(*)` by the full row count. -/
def tableBackend (rows : List GoEntity) : Backend where
  runSelect := fun stmt =>
    match stmt.args with
    | [.int l, .int o] => .ok ((rows.drop o.toNat).take l.toNat)
    | _ => .error "unsupported"
  runExec := fun _ => .error "unsupported"
  runGet := fun _ => .ok (rows.length : Int)

/-- The two-row `sample_entities` table of the pagination test. -/
def twoRows : List GoEntity :=
  [[.int 1, .str "test"], [.int 2, .str "test2"]]

/-- A dynamic type exposing none of the `Entity` methods, so the
interface cast fails on it. -/
def badDyn : DynType := ⟨[], []⟩

/-- An entity type whose dynamic type does not implement `Entity`. -/
def BadEntityType : EntityType :=
  ⟨"sample_entities", sampleFields, badDyn, fun e => e.headD (.int 0)⟩

/-- The spec's per-field inclusion rule for the INSERT column list:
include a persisted field unless it is the key field (storage name `id`)
and marked auto-generated. -/
def specIncluded (f : GoField) : Bool :=
  !(decide (columnName f = "id") && fieldAuto f)

/-- The spec's column list: the storage names of the included fields, in
field order. -/
def specColumns (fs : List GoField) : List String :=
  (fs.filter specIncluded).map columnName

/-- The spec's value list for one row: the entity's values at the
included fields, in field order. -/
def specRowValues (fs : List GoField) (e : GoEntity) : List GoValue :=
  ((fs.zip e).filter fun fv => specIncluded fv.1).map fun fv => fv.2

/-- Index of the first field with the given Go field name, the field
`reflect.Value.FieldByName` resolves to. -/
def idIdx (name : String) : List GoField → Option Nat
  | [] => none
  | f :: fs => if f.fieldName = name then some 0 else (idIdx name fs).map (· + 1)

/-- The last field whose column name is `id`, if any: the final value of
the `idField`/`idAutoIncrement` variables of `SaveAll`'s field loop. -/
def lastIdState : List GoField → Option GoField
  | [] => none
  | f :: fs =>
    match lastIdState fs with
    | some g => some g
    | none => if columnName f = "id" then some f else none

theorem splitComma_ne_nil (l : List Char) : splitComma l ≠ [] := by
  cases l with
  | nil => simp [splitComma]
  | cons c cs =>
    simp only [splitComma]
    split
    · simp
    · split <;> simp

theorem tagParts_length_pos (f : GoField) : 0 < (tagParts f).length := by
  rw [tagParts, List.length_map]
  exact List.length_pos.mpr (splitComma_ne_nil _)

theorem columnName2_eq (f : GoField) : columnName2 f = columnName f := by
  rw [columnName2, columnName, tagParts]
  cases h : splitComma f.dbTag.data with
  | nil => exact absurd h (splitComma_ne_nil _)
  | cons p ps => simp

theorem goJoin_cons_cons (sep s t : String) (rest : List String) :
    goJoin sep (s :: t :: rest) = s ++ sep ++ goJoin sep (t :: rest) := rfl

theorem trimSuffix_append_comma (s : String) : trimSuffix (s ++ ",") "," = s := by
  have hd : (s ++ ",").data = s.data ++ [','] := String.data_append s ","
  rw [trimSuffix, hd]
  rw [if_pos (by rw [List.isSuffixOf]; simp)]
  have hl : (s.data ++ [',']).length - (",".data).length = s.data.length := by simp
  rw [hl]
  rw [List.take_left' rfl]

theorem concatN_comma (g : String) :
    ∀ n, concatN (n + 1) (g ++ ",") = goJoin "," (List.replicate (n + 1) g) ++ "," := by
  intro n
  induction n with
  | zero => simp [concatN, goJoin, List.replicate]
  | succ m ih =>
    have h1 : concatN (m + 1 + 1) (g ++ ",") = (g ++ ",") ++ concatN (m + 1) (g ++ ",") := rfl
    rw [h1, ih, List.replicate_succ, List.replicate_succ]
    rw [List.replicate_succ] at ih ⊢
    cases hm : List.replicate m g with
    | nil => simp [goJoin, String.append_assoc]
    | cons x xs => simp [goJoin, String.append_assoc]

theorem insertQuery_eq (table : String) (cols phs : List String) (n : Nat) :
    insertQuery table cols phs (n + 1) =
      "INSERT INTO " ++ table ++ " (" ++ goJoin "," cols ++ ") VALUES " ++
        goJoin "," (List.replicate (n + 1) ("(" ++ goJoin "," phs ++ ")")) := by
  have h2 : ("(" ++ goJoin "," phs ++ "),")
      = ("(" ++ goJoin "," phs ++ ")") ++ "," := by
    apply String.ext
    simp [String.data_append]
  rw [insertQuery, h2, concatN_comma, ← String.append_assoc]
  exact trimSuffix_append_comma _

theorem goJoin_placeholder_count :
    ∀ n : Nat, ((goJoin "," (List.replicate n "?")).data.count '?') = n := by
  intro n
  induction n with
  | zero => rfl
  | succ m ih =>
    cases m with
    | zero => rfl
    | succ k =>
      rw [List.replicate_succ, List.replicate_succ, goJoin_cons_cons,
        ← List.replicate_succ]
      rw [String.data_append, String.data_append, List.count_append, List.count_append]
      rw [ih]
      have h1 : List.count '?' ("?".data) = 1 := rfl
      have h2 : List.count '?' (",".data) = 0 := rfl
      rw [h1, h2]
      omega

theorem scanStep_eq (st : ScanState) (f : GoField) :
    scanStep st f =
      { columns := st.columns ++ (if specIncluded f then [columnName f] else []),
        placeholders := st.placeholders ++ (if specIncluded f then ["?"] else []),
        idAutoIncrement := if columnName f = "id" then fieldAuto f else st.idAutoIncrement,
        idField := if columnName f = "id" then f else st.idField } := by
  simp only [scanStep]
  rw [if_pos (tagParts_length_pos f)]
  have hcn : (tagParts f).headD "" = columnName f := rfl
  rw [hcn]
  by_cases hc : columnName f = "id"
  · by_cases ha : fieldAuto f = true
    · simp [hc, ha, specIncluded]
    · have ha2 : fieldAuto f = false := by
        cases hfa : fieldAuto f
        · rfl
        · exact absurd hfa ha
      simp [hc, ha2, specIncluded]
  · simp [hc, specIncluded]

theorem scanFoldl_cp : ∀ (fs : List GoField) (st : ScanState),
    (fs.foldl scanStep st).columns = st.columns ++ (fs.filter specIncluded).map columnName ∧
    (fs.foldl scanStep st).placeholders
      = st.placeholders ++ (fs.filter specIncluded).map (fun _ => "?")
  | [], st => by simp
  | f :: fs, st => by
    have ih := scanFoldl_cp fs (scanStep st f)
    rw [List.foldl_cons]
    refine ⟨?_, ?_⟩
    · rw [ih.1, scanStep_eq]
      by_cases h : specIncluded f = true <;> simp [h, List.filter_cons]
    · rw [ih.2, scanStep_eq]
      by_cases h : specIncluded f = true <;> simp [h, List.filter_cons]

theorem scanFoldl_id : ∀ (fs : List GoField) (st : ScanState),
    (fs.foldl scanStep st).idAutoIncrement
        = (match lastIdState fs with | some g => fieldAuto g | none => st.idAutoIncrement) ∧
    (fs.foldl scanStep st).idField
        = (match lastIdState fs with | some g => g | none => st.idField)
  | [], st => by simp [lastIdState]
  | f :: fs, st => by
    have ih := scanFoldl_id fs (scanStep st f)
    rw [List.foldl_cons]
    cases hg : lastIdState fs with
    | some g => simp only [lastIdState, hg] at ih ⊢; exact ih
    | none =>
      simp only [lastIdState, hg] at ih ⊢
      rw [ih.1, ih.2, scanStep_eq]
      by_cases hc : columnName f = "id" <;> simp [hc]

theorem scan_columns (fs : List GoField) :
    (scanFields fs).columns = specColumns fs ∧
    (scanFields fs).placeholders = List.replicate (specColumns fs).length "?" := by
  have h := scanFoldl_cp fs initScan
  refine ⟨?_, ?_⟩
  · rw [scanFields, h.1]; simp [initScan, specColumns]
  · rw [scanFields, h.2]
    simp [initScan, specColumns, List.map_const']

theorem scan_id (fs : List GoField) :
    (scanFields fs).idAutoIncrement
        = (match lastIdState fs with | some g => fieldAuto g | none => false) ∧
    (scanFields fs).idField
        = (match lastIdState fs with | some g => g | none => (⟨"", ""⟩ : GoField)) := by
  have h := scanFoldl_id fs initScan
  rw [scanFields]
  simpa [initScan] using h

theorem lastIdState_mem : ∀ {fs : List GoField} {g : GoField},
    lastIdState fs = some g → g ∈ fs ∧ columnName g = "id"
  | [], g => by simp [lastIdState]
  | f :: fs, g => by
    intro h
    cases hg : lastIdState fs with
    | some g1 =>
      simp only [lastIdState, hg] at h
      cases h
      have := lastIdState_mem hg
      exact ⟨List.mem_cons_of_mem _ this.1, this.2⟩
    | none =>
      simp only [lastIdState, hg] at h
      by_cases hc : columnName f = "id"
      · rw [if_pos hc] at h
        cases h
        exact ⟨List.mem_cons_self _ _, hc⟩
      · rw [if_neg hc] at h
        cases h

theorem lastIdState_of_mem : ∀ {fs : List GoField} {f : GoField},
    f ∈ fs → columnName f = "id" → ∃ g, lastIdState fs = some g
  | [], f => by simp
  | f1 :: fs, f => by
    intro hf hc
    cases hg : lastIdState fs with
    | some g => exact ⟨g, by simp only [lastIdState, hg]⟩
    | none =>
      rcases List.mem_cons.mp hf with h1 | h1
      · subst h1
        exact ⟨f, by simp only [lastIdState, hg]; rw [if_pos hc]⟩
      · obtain ⟨g, hg1⟩ := lastIdState_of_mem h1 hc
        rw [hg1] at hg
        cases hg

theorem mem_of_length_le_one {α : Type} {l : List α} (h : l.length ≤ 1) {a b : α}
    (ha : a ∈ l) (hb : b ∈ l) : a = b := by
  cases l with
  | nil => cases ha
  | cons x xs =>
    cases xs with
    | nil =>
      simp only [List.mem_singleton] at ha hb
      rw [ha, hb]
    | cons y ys => simp at h

theorem finalAuto_of_unique {fs : List GoField}
    (hone : (fs.filter fun f => decide (columnName f = "id")).length ≤ 1)
    {f : GoField} (hf : f ∈ fs) (hc : columnName f = "id") :
    (scanFields fs).idAutoIncrement = fieldAuto f := by
  obtain ⟨g, hg⟩ := lastIdState_of_mem hf hc
  have hm := lastIdState_mem hg
  have hgf : g = f := by
    refine mem_of_length_le_one hone ?_ ?_
    · exact List.mem_filter.mpr ⟨hm.1, by simp [hm.2]⟩
    · exact List.mem_filter.mpr ⟨hf, by simp [hc]⟩
  rw [(scan_id fs).1, hg, hgf]

theorem specRowValues_nil_left (e : GoEntity) : specRowValues [] e = [] := by
  simp [specRowValues]

theorem specRowValues_nil_right (fs : List GoField) : specRowValues fs [] = [] := by
  simp [specRowValues]

theorem specRowValues_cons (f : GoField) (fs : List GoField) (v : GoValue) (vs : GoEntity) :
    specRowValues (f :: fs) (v :: vs)
      = if specIncluded f = true then v :: specRowValues fs vs else specRowValues fs vs := by
  simp only [specRowValues, List.zip_cons_cons, List.filter_cons]
  by_cases h : specIncluded f = true <;> simp [h]

theorem rowValues_spec : ∀ (fs : List GoField) (e : GoEntity) (auto : Bool),
    (∀ f ∈ fs, ((columnName f = "id" ∧ auto = true) ↔ (columnName f = "id" ∧ fieldAuto f = true))) →
    rowValues auto fs e = specRowValues fs e
  | [], e, auto => by
    intro h
    cases e <;> simp [rowValues, specRowValues]
  | f :: fs, [], auto => by
    intro h
    simp [rowValues, specRowValues]
  | f :: fs, v :: vs, auto => by
    intro h
    have hf := h f (List.mem_cons_self _ _)
    have ih := rowValues_spec fs vs auto (fun g hg => h g (List.mem_cons_of_mem _ hg))
    rw [specRowValues_cons]
    simp only [rowValues, columnName2_eq]
    by_cases hc : columnName f = "id"
    · by_cases ha : auto = true
      · have hfa : fieldAuto f = true := (hf.mp ⟨hc, ha⟩).2
        have hinc : specIncluded f = false := by simp [specIncluded, hc, hfa]
        rw [if_pos ⟨hc, ha⟩, hinc]
        simpa using ih
      · have hfa : ¬fieldAuto f = true := fun hfa => ha (hf.mpr ⟨hc, hfa⟩).2
        have hinc : specIncluded f = true := by
          simp only [specIncluded, hc]
          cases hx : fieldAuto f
          · simp
          · exact absurd hx hfa
        rw [if_neg (fun hand => ha hand.2), if_pos hinc, ih]
    · have hinc : specIncluded f = true := by simp [specIncluded, hc]
      rw [if_neg (fun hand => hc hand.1), if_pos hinc, ih]

theorem skip_iff_of_unique {fs : List GoField}
    (hone : (fs.filter fun f => decide (columnName f = "id")).length ≤ 1) :
    ∀ f ∈ fs, ((columnName f = "id" ∧ (scanFields fs).idAutoIncrement = true)
      ↔ (columnName f = "id" ∧ fieldAuto f = true)) := by
  intro f hf
  by_cases hc : columnName f = "id"
  · rw [finalAuto_of_unique hone hf hc]
  · simp [hc]

theorem saveAll_trace (et : EntityType) (b : Backend) (entities : List GoEntity)
    (hne : entities ≠ []) (hcast : implementsEntity (methodSetPtr et.dyn) = true) :
    (SaveAll et b entities).1 = [saveAllStatement et entities] := by
  rw [SaveAll, if_neg (by simpa using hne), hcast]
  simp only [Bool.not_true, Bool.false_eq_true, if_false]
  cases hb : b.runExec (saveAllStatement et entities) with
  | error e => simp [hb]
  | ok res =>
    simp only [hb]
    by_cases hauto : (scanFields et.fields).idAutoIncrement = true
    · rw [if_pos hauto]
      cases hl : res.lastInsertId with
      | error e => simp
      | ok lid =>
        cases hbf : backfillEntities (scanFields et.fields).idField.fieldName lid
            et.fields entities 0 <;> simp [hbf]
    · rw [if_neg hauto]

theorem collectIDs_ok (et : EntityType)
    (h : implementsEntity (methodSetPtr et.dyn) = true) :
    ∀ entities : List GoEntity, collectIDs et entities = .ok (entities.map et.getID)
  | [] => by simp [collectIDs]
  | e :: es => by
    rw [collectIDs, if_pos h, collectIDs_ok et h es]
    simp

theorem idIdx_getElem : ∀ {name : String} {fs : List GoField} {k : Nat},
    idIdx name fs = some k →
    k < fs.length ∧ ∃ f, fs[k]? = some f ∧ f.fieldName = name
  | name, [], k => by simp [idIdx]
  | name, f :: fs, k => by
    intro h
    by_cases hf : f.fieldName = name
    · rw [idIdx, if_pos hf] at h
      cases h
      exact ⟨Nat.succ_pos _, f, by simp, hf⟩
    · rw [idIdx, if_neg hf] at h
      cases hk : idIdx name fs with
      | none => rw [hk] at h; cases h
      | some k1 =>
        rw [hk] at h
        simp only [Option.map_some'] at h
        cases h
        obtain ⟨hlt, g, hg, hgn⟩ := idIdx_getElem hk
        exact ⟨by simpa using hlt, g, by simpa using hg, hgn⟩

theorem idIdx_of_mem : ∀ {fs : List GoField} {f : GoField},
    f ∈ fs → ∃ k, idIdx f.fieldName fs = some k
  | [], f => by simp
  | f1 :: fs, f => by
    intro hf
    by_cases h1 : f1.fieldName = f.fieldName
    · exact ⟨0, by rw [idIdx, if_pos h1]⟩
    · rcases List.mem_cons.mp hf with h2 | h2
      · subst h2; exact absurd rfl h1
      · obtain ⟨k, hk⟩ := idIdx_of_mem h2
        exact ⟨k + 1, by rw [idIdx, if_neg h1, hk]; rfl⟩

theorem setIntFields_int : ∀ (name : String) (n : Int) (fs : List GoField) (e : GoEntity)
    (k : Nat) (v : Int),
    idIdx name fs = some k → e[k]? = some (GoValue.int v) → e.length = fs.length →
    setIntFields name n fs e = .ok (e.set k (.int (wrap64 n)))
  | name, n, [], e, k, v => by simp [idIdx]
  | name, n, f :: fs, [], k, v => by
    intro _ _ hlen
    simp at hlen
  | name, n, f :: fs, w :: ws, k, v => by
    intro hk hv hlen
    by_cases hf : f.fieldName = name
    · rw [idIdx, if_pos hf] at hk
      cases hk
      simp only [List.getElem?_cons_zero, Option.some.injEq] at hv
      subst hv
      simp only [setIntFields, if_pos hf]
      rfl
    · rw [idIdx, if_neg hf] at hk
      cases hik : idIdx name fs with
      | none => rw [hik] at hk; cases hk
      | some k1 =>
        rw [hik] at hk
        simp only [Option.map_some'] at hk
        cases hk
        have hv2 : ws[k1]? = some (GoValue.int v) := by simpa using hv
        have hlen2 : ws.length = fs.length := by simpa using hlen
        have ih := setIntFields_int name n fs ws k1 v hik hv2 hlen2
        simp only [setIntFields, if_neg hf, ih]
        rfl

theorem setIntFields_str : ∀ (name : String) (n : Int) (fs : List GoField) (e : GoEntity)
    (k : Nat) (s : String),
    idIdx name fs = some k → e[k]? = some (GoValue.str s) → e.length = fs.length →
    setIntFields name n fs e
      = .panic "reflect: call of reflect.Value.SetInt on string Value"
  | name, n, [], e, k, s => by simp [idIdx]
  | name, n, f :: fs, [], k, s => by
    intro _ _ hlen
    simp at hlen
  | name, n, f :: fs, w :: ws, k, s => by
    intro hk hv hlen
    by_cases hf : f.fieldName = name
    · rw [idIdx, if_pos hf] at hk
      cases hk
      simp only [List.getElem?_cons_zero, Option.some.injEq] at hv
      subst hv
      simp only [setIntFields, if_pos hf]
    · rw [idIdx, if_neg hf] at hk
      cases hik : idIdx name fs with
      | none => rw [hik] at hk; cases hk
      | some k1 =>
        rw [hik] at hk
        simp only [Option.map_some'] at hk
        cases hk
        have hv2 : ws[k1]? = some (GoValue.str s) := by simpa using hv
        have hlen2 : ws.length = fs.length := by simpa using hlen
        have ih := setIntFields_str name n fs ws k1 s hik hv2 hlen2
        simp only [setIntFields, if_neg hf, ih]

theorem setIntFields_ok_inv : ∀ (name : String) (n : Int) (fs : List GoField)
    (e e2 : GoEntity),
    setIntFields name n fs e = .ok e2 →
    ∃ k f, idIdx name fs = some k ∧ fs[k]? = some f ∧ f.fieldName = name ∧
      e2 = e.set k (.int (wrap64 n))
  | name, n, [], e, e2 => by simp [setIntFields]
  | name, n, f :: fs, [], e2 => by simp [setIntFields]
  | name, n, f :: fs, w :: ws, e2 => by
    intro h
    by_cases hf : f.fieldName = name
    · simp only [setIntFields, if_pos hf] at h
      cases w with
      | int m =>
        cases h
        exact ⟨0, f, by rw [idIdx, if_pos hf], by simp, hf, rfl⟩
      | str s => cases h
    · simp only [setIntFields, if_neg hf] at h
      cases hrec : setIntFields name n fs ws with
      | ok vs2 =>
        rw [hrec] at h
        cases h
        obtain ⟨k, g, hik, hg, hgn, he⟩ := setIntFields_ok_inv name n fs ws vs2 hrec
        refine ⟨k + 1, g, ?_, by simpa using hg, hgn, by rw [he]; rfl⟩
        rw [idIdx, if_neg hf, hik]
        rfl
      | err m => rw [hrec] at h; cases h
      | panic m => rw [hrec] at h; cases h

theorem backfill_eq (name : String) (lid : Int) (fs : List GoField) (k : Nat)
    (hk : idIdx name fs = some k) :
    ∀ (es : List GoEntity) (i : Nat),
      (∀ e ∈ es, e.length = fs.length ∧ ∃ v : Int, e[k]? = some (.int v)) →
      ∃ out, backfillEntities name lid fs es i = .ok out ∧
        out.length = es.length ∧
        ∀ (j : Nat) (e0 : GoEntity), es[j]? = some e0 →
          out[j]? = some (e0.set k (.int (wrap64 (lid + (i + j)))))
  | [], i => by
    intro _
    exact ⟨[], rfl, rfl, by simp⟩
  | e :: es, i => by
    intro h
    obtain ⟨hlen, v, hv⟩ := h e (List.mem_cons_self _ _)
    have hset := setIntFields_int name (lid + (i : Int)) fs e k v hk hv hlen
    obtain ⟨out, hout, hlen2, hj⟩ :=
      backfill_eq name lid fs k hk es (i + 1) (fun x hx => h x (List.mem_cons_of_mem _ hx))
    refine ⟨e.set k (.int (wrap64 (lid + i))) :: out, ?_, by simp [hlen2], ?_⟩
    · simp only [backfillEntities, hset, hout]
    · intro j e0 hj0
      cases j with
      | zero =>
        simp only [List.getElem?_cons_zero, Option.some.injEq] at hj0
        subst hj0
        simp
      | succ j1 =>
        have hrec := hj j1 e0 (by simpa using hj0)
        have harith : ((i + 1 : Nat) : Int) + (j1 : Int)
            = (i : Int) + ((j1 + 1 : Nat) : Int) := by push_cast; ring
        rw [harith] at hrec
        simpa using hrec

theorem backfill_ok_inv : ∀ (name : String) (lid : Int) (fs : List GoField)
    (es : List GoEntity) (i : Nat) (out : List GoEntity),
    backfillEntities name lid fs es i = .ok out →
    out.length = es.length ∧
    ∀ (j : Nat) (e : GoEntity), out[j]? = some e →
      ∃ e0 k f, es[j]? = some e0 ∧ idIdx name fs = some k ∧ fs[k]? = some f ∧
        f.fieldName = name ∧ e = e0.set k (.int (wrap64 (lid + (i + j))))
  | name, lid, fs, [], i, out => by
    intro h
    simp only [backfillEntities] at h
    cases h
    exact ⟨rfl, by simp⟩
  | name, lid, fs, e :: es, i, out => by
    intro h
    simp only [backfillEntities] at h
    cases hset : setIntFields name (lid + (i : Int)) fs e with
    | ok e2 =>
      rw [hset] at h
      cases hrec : backfillEntities name lid fs es (i + 1) with
      | ok out1 =>
        rw [hrec] at h
        cases h
        have hinv := backfill_ok_inv name lid fs es (i + 1) out1 hrec
        obtain ⟨k, f, hik, hf, hfn, he2⟩ := setIntFields_ok_inv _ _ _ _ _ hset
        refine ⟨by simp [hinv.1], ?_⟩
        intro j x hx
        cases j with
        | zero =>
          simp only [List.getElem?_cons_zero, Option.some.injEq] at hx
          subst hx
          exact ⟨e, k, f, by simp, hik, hf, hfn, by simpa using he2⟩
        | succ j1 =>
          obtain ⟨e0, k1, f1, he0, hik1, hf1, hfn1, hx1⟩ :=
            hinv.2 j1 x (by simpa using hx)
          have harith : ((i + 1 : Nat) : Int) + (j1 : Int)
              = (i : Int) + ((j1 + 1 : Nat) : Int) := by push_cast; ring
          rw [harith] at hx1
          exact ⟨e0, k1, f1, by simpa using he0, hik1, hf1, hfn1, hx1⟩
      | err m => rw [hrec] at h; cases h
      | panic m => rw [hrec] at h; cases h
    | err m => rw [hset] at h; cases h
    | panic m => rw [hset] at h; cases h

theorem wrap64_eq_self {n : Int} (h1 : -(2 ^ 63) ≤ n) (h2 : n < 2 ^ 63) :
    wrap64 n = n := by
  rw [wrap64]
  have e1 : (2 : Int) ^ 63 = 9223372036854775808 := by norm_num
  have e2 : (2 : Int) ^ 64 = 18446744073709551616 := by norm_num
  rw [e1, e2] at *
  omega

theorem saveAll_cast_fail (et : EntityType) (b : Backend) (entities : List GoEntity)
    (hne : entities.length ≠ 0)
    (hcast : implementsEntity (methodSetPtr et.dyn) = false) :
    SaveAll et b entities = ([], .err notEntityMsg) := by
  rw [SaveAll, if_neg hne, hcast]
  rfl

theorem saveAll_exec_error (et : EntityType) (b : Backend) (entities : List GoEntity)
    (e : String) (hne : entities.length ≠ 0)
    (hcast : implementsEntity (methodSetPtr et.dyn) = true)
    (hb : b.runExec (saveAllStatement et entities) = .error e) :
    SaveAll et b entities = ([saveAllStatement et entities], .err e) := by
  rw [SaveAll, if_neg hne, hcast]
  simp [hb]

theorem saveAll_not_auto (et : EntityType) (b : Backend) (entities : List GoEntity)
    (res : ExecResult) (hne : entities.length ≠ 0)
    (hcast : implementsEntity (methodSetPtr et.dyn) = true)
    (hb : b.runExec (saveAllStatement et entities) = .ok res)
    (hauto : (scanFields et.fields).idAutoIncrement = false) :
    SaveAll et b entities = ([saveAllStatement et entities], .ok entities) := by
  rw [SaveAll, if_neg hne, hcast]
  simp [hb, hauto]

theorem saveAll_lid_error (et : EntityType) (b : Backend) (entities : List GoEntity)
    (res : ExecResult) (e : String) (hne : entities.length ≠ 0)
    (hcast : implementsEntity (methodSetPtr et.dyn) = true)
    (hb : b.runExec (saveAllStatement et entities) = .ok res)
    (hauto : (scanFields et.fields).idAutoIncrement = true)
    (hlid : res.lastInsertId = .error e) :
    SaveAll et b entities = ([saveAllStatement et entities], .err e) := by
  rw [SaveAll, if_neg hne, hcast]
  simp [hb, hauto, hlid]

theorem saveAll_auto_eq (et : EntityType) (b : Backend) (entities : List GoEntity)
    (res : ExecResult) (lid : Int) (hne : entities.length ≠ 0)
    (hcast : implementsEntity (methodSetPtr et.dyn) = true)
    (hb : b.runExec (saveAllStatement et entities) = .ok res)
    (hauto : (scanFields et.fields).idAutoIncrement = true)
    (hlid : res.lastInsertId = .ok lid) :
    SaveAll et b entities
      = ([saveAllStatement et entities],
         match backfillEntities (scanFields et.fields).idField.fieldName lid
             et.fields entities 0 with
           | .ok out => .ok out
           | .err m => .err m
           | .panic m => .panic m) := by
  rw [SaveAll, if_neg hne, hcast]
  simp only [Bool.not_true, Bool.false_eq_true, if_false, hb, hauto, if_true, hlid]
  cases hbf : backfillEntities (scanFields et.fields).idField.fieldName lid
      et.fields entities 0 <;> simp [hbf]

/-- C5: `SaveAll` applied to an empty entity list returns success without
issuing any statement against the backend: the statement trace is empty,
the outcome is `ok`, and the (empty) input is returned unchanged. -/
theorem C5_empty_noop (et : EntityType) (b : Backend) :
    SaveAll et b [] = ([], .ok []) := rfl

/-- C3: `FindAllByID` and `DeleteByIDs` each issue exactly one statement
whose `IN (...)` clause has one `?` placeholder per identifier and whose
positional arguments are exactly the identifiers; for an empty identifier
list the statement is still issued, with the clause degenerating to the
invalid `IN ()`. -/
theorem C3_in_clause (et : EntityType) (b : Backend) (ids : List GoValue) :
    (FindAllByID et b ids).1 = [⟨findAllByIDQuery et.tableName ids.length, ids⟩] ∧
    (DeleteByIDs et b ids).1 = [⟨deleteByIDsQuery et.tableName ids.length, ids⟩] ∧
    ((goJoin "," (List.replicate ids.length "?")).data.count '?') = ids.length ∧
    findAllByIDQuery et.tableName 0
      = "SELECT * FROM " ++ et.tableName ++ " WHERE id IN ()" ∧
    deleteByIDsQuery et.tableName 0
      = "DELETE FROM " ++ et.tableName ++ " WHERE id IN ()" := by
  have hpar : (" WHERE id IN (" ++ ")" : String) = " WHERE id IN ()" := by decide
  refine ⟨?_, ?_, goJoin_placeholder_count _, ?_, ?_⟩
  · cases hb : b.runSelect ⟨findAllByIDQuery et.tableName ids.length, ids⟩ with
    | ok es => simp [FindAllByID, hb]
    | error e => simp [FindAllByID, hb]
  · cases hb : b.runExec ⟨deleteByIDsQuery et.tableName ids.length, ids⟩ with
    | ok res => simp [DeleteByIDs, hb]
    | error e => simp [DeleteByIDs, hb]
  · rw [findAllByIDQuery]
    have hg : goJoin "," (List.replicate 0 "?") = "" := rfl
    rw [hg]
    calc "SELECT * FROM " ++ et.tableName ++ " WHERE id IN (" ++ "" ++ ")"
        = "SELECT * FROM " ++ et.tableName ++ " WHERE id IN (" ++ ")" := by simp
      _ = "SELECT * FROM " ++ et.tableName ++ (" WHERE id IN (" ++ ")") := by
          rw [String.append_assoc]
      _ = "SELECT * FROM " ++ et.tableName ++ " WHERE id IN ()" := by rw [hpar]
  · rw [deleteByIDsQuery]
    have hg : goJoin "," (List.replicate 0 "?") = "" := rfl
    rw [hg]
    calc "DELETE FROM " ++ et.tableName ++ " WHERE id IN (" ++ "" ++ ")"
        = "DELETE FROM " ++ et.tableName ++ " WHERE id IN (" ++ ")" := by simp
      _ = "DELETE FROM " ++ et.tableName ++ (" WHERE id IN (" ++ ")") := by
          rw [String.append_assoc]
      _ = "DELETE FROM " ++ et.tableName ++ " WHERE id IN ()" := by rw [hpar]

/-- C4: when the backing select succeeds with rows `es`, `FindByID` and
`ExistsByID` fail with the not-found error exactly when `es` is empty;
otherwise `FindByID` returns the first element of `es` and `ExistsByID`
succeeds with `()`, reporting existence only through the error channel. -/
theorem C4_byid_notfound (et : EntityType) (b : Backend) (id : GoValue)
    (es : List GoEntity)
    (h : b.runSelect ⟨findAllByIDQuery et.tableName 1, [id]⟩ = .ok es) :
    ((FindByID et b id).2 = .err notFoundMsg ↔ es = []) ∧
    (∀ e rest, es = e :: rest → (FindByID et b id).2 = .ok e) ∧
    ((ExistsByID et b id).2 = .err notFoundMsg ↔ es = []) ∧
    (es ≠ [] → (ExistsByID et b id).2 = .ok ()) := by
  have hfa : FindAllByID et b [id]
      = ([⟨findAllByIDQuery et.tableName 1, [id]⟩], .ok es) := by
    simp only [FindAllByID, List.length_singleton]
    rw [h]
  cases es with
  | nil =>
    refine ⟨by simp [FindByID, hfa], ?_, by simp [ExistsByID, hfa], by simp⟩
    intro e rest hcon
    cases hcon
  | cons e rest =>
    refine ⟨by simp [FindByID, hfa], ?_, by simp [ExistsByID, hfa], ?_⟩
    · intro e1 rest1 hcon
      cases hcon
      simp [FindByID, hfa]
    · intro _
      simp [ExistsByID, hfa]

/-- C4 witness: at the sample entity type with a backend returning no
rows, `FindByID` and `ExistsByID` both fail with the not-found error. -/
theorem C4_byid_notfound_witness :
    ((FindByID SampleEntityType (selBackend []) (.int 1)).2 = .err notFoundMsg
        ↔ ([] : List GoEntity) = []) ∧
    (∀ e rest, ([] : List GoEntity) = e :: rest →
      (FindByID SampleEntityType (selBackend []) (.int 1)).2 = .ok e) ∧
    ((ExistsByID SampleEntityType (selBackend []) (.int 1)).2 = .err notFoundMsg
        ↔ ([] : List GoEntity) = []) ∧
    (([] : List GoEntity) ≠ [] →
      (ExistsByID SampleEntityType (selBackend []) (.int 1)).2 = .ok ()) :=
  C4_byid_notfound SampleEntityType (selBackend []) (.int 1) [] rfl

/-- C7: every singleton operation delegates to its bulk counterpart on a
one-element list, and `DeleteEntities` extracts every entity's id and
delegates to `DeleteByIDs` (its per-entity interface cast always passing
under the generic bound). -/
theorem C7_delegation (et : EntityType) (b : Backend) (e : GoEntity)
    (id : GoValue) (entities : List GoEntity) :
    Save et b e = SaveAll et b [e] ∧
    DeleteByID et b id = DeleteByIDs et b [id] ∧
    DeleteEntity et b e = DeleteEntities et b [e] ∧
    (implementsEntity (methodSetPtr et.dyn) = true →
      DeleteEntities et b entities = DeleteByIDs et b (entities.map et.getID)) := by
  refine ⟨rfl, rfl, rfl, fun h => ?_⟩
  rw [DeleteEntities, collectIDs_ok et h]

/-- C7 witness: the delegation equalities at the sample entity type. -/
theorem C7_delegation_witness :
    Save SampleEntityType (okBackend 1) [.int 3, .str "x"]
      = SaveAll SampleEntityType (okBackend 1) [[.int 3, .str "x"]] ∧
    DeleteByID SampleEntityType (okBackend 1) (.int 3)
      = DeleteByIDs SampleEntityType (okBackend 1) [.int 3] ∧
    DeleteEntity SampleEntityType (okBackend 1) [.int 3, .str "x"]
      = DeleteEntities SampleEntityType (okBackend 1) [[.int 3, .str "x"]] ∧
    (implementsEntity (methodSetPtr SampleEntityType.dyn) = true →
      DeleteEntities SampleEntityType (okBackend 1) [[.int 3, .str "x"]]
        = DeleteByIDs SampleEntityType (okBackend 1)
            (List.map SampleEntityType.getID [[.int 3, .str "x"]])) :=
  C7_delegation SampleEntityType (okBackend 1) [.int 3, .str "x"] (.int 3)
    [[.int 3, .str "x"]]

/-- C8: on a non-empty input whose entity type fails the `Entity`
interface cast, `SaveAll` stops with the validation error before issuing
any statement; and the cast is unreachable under the generic bound, since
a value type implementing `Entity` forces its pointer type's method set
to implement it too. -/
theorem C8_validation (et : EntityType) (b : Backend) (e : GoEntity)
    (es : List GoEntity) (d : DynType) :
    (implementsEntity (methodSetPtr et.dyn) = false →
      SaveAll et b (e :: es) = ([], .err notEntityMsg)) ∧
    (implementsEntity (methodSetValue d) = true →
      implementsEntity (methodSetPtr d) = true) := by
  constructor
  · intro h
    rw [SaveAll, if_neg (by simp), h]
    rfl
  · intro h
    have hm : "GetID" ∈ methodSetValue d ∧ "GetTableName" ∈ methodSetValue d ∧
        "ToMap" ∈ methodSetValue d := by
      simpa [implementsEntity, Bool.and_eq_true, and_assoc] using h
    simp only [implementsEntity, methodSetPtr, methodSetValue, Bool.and_eq_true]
    refine ⟨⟨?_, ?_⟩, ?_⟩ <;> simp [List.mem_append]
    · exact Or.inl hm.1
    · exact Or.inl hm.2.1
    · exact Or.inl hm.2.2

/-- C8 witness: a shapeless entity type makes `SaveAll` fail with the
validation error, and the sample entity type's value method set implies
its pointer method set implements `Entity`. -/
theorem C8_validation_witness :
    (SaveAll BadEntityType (okBackend 1) [[.int 0, .str "x"]]
      = ([], .err notEntityMsg)) ∧
    implementsEntity (methodSetPtr sampleDyn) = true :=
  ⟨(C8_validation BadEntityType (okBackend 1) [.int 0, .str "x"] [] sampleDyn).1
      (by decide),
   (C8_validation BadEntityType (okBackend 1) [.int 0, .str "x"] [] sampleDyn).2
      (by decide)⟩

/-- C6: `FindAllPaginated` issues the `LIMIT ? OFFSET ?` page query and
then the separate `COUNT(*)` query, and on success returns a
`PaginatedResult` echoing the request, carrying the backend's full-table
count and the page rows; on the two-row sample table, `{limit 1, offset 0}`
returns the first row and `{limit 1, offset 1}` the second, each with
total count 2. -/
theorem C6_paginated (et : EntityType) (b : Backend) (p : Pagination)
    (page : List GoEntity) (cnt : Int)
    (h1 : b.runSelect ⟨paginatedQuery et.tableName, [.int p.limit, .int p.offset]⟩
        = .ok page)
    (h2 : b.runGet ⟨countQuery et.tableName, []⟩ = .ok cnt) :
    FindAllPaginated et b p =
      ([⟨paginatedQuery et.tableName, [.int p.limit, .int p.offset]⟩,
        ⟨countQuery et.tableName, []⟩], .ok ⟨p, cnt, page⟩) ∧
    FindAllPaginated SampleEntityType (tableBackend twoRows) ⟨1, 0⟩ =
      ([⟨paginatedQuery "sample_entities", [.int 1, .int 0]⟩,
        ⟨countQuery "sample_entities", []⟩],
       .ok ⟨⟨1, 0⟩, 2, [[.int 1, .str "test"]]⟩) ∧
    FindAllPaginated SampleEntityType (tableBackend twoRows) ⟨1, 1⟩ =
      ([⟨paginatedQuery "sample_entities", [.int 1, .int 1]⟩,
        ⟨countQuery "sample_entities", []⟩],
       .ok ⟨⟨1, 1⟩, 2, [[.int 2, .str "test2"]]⟩) := by
  refine ⟨?_, by decide, by decide⟩
  simp [FindAllPaginated, h1, h2]

/-- C6 witness: the composition equality instantiated at the two-row
table backend. -/
theorem C6_paginated_witness :
    FindAllPaginated SampleEntityType (tableBackend twoRows) ⟨1, 0⟩ =
      ([⟨paginatedQuery "sample_entities", [.int 1, .int 0]⟩,
        ⟨countQuery "sample_entities", []⟩],
       .ok ⟨⟨1, 0⟩, 2, [[.int 1, .str "test"]]⟩) :=
  (C6_paginated SampleEntityType (tableBackend twoRows) ⟨1, 0⟩
    [[.int 1, .str "test"]] 2 rfl rfl).1

/-- C2: on a non-empty input, `SaveAll` issues exactly one statement: a
multi-row INSERT whose column list comes from the first entity's shape
with every persisted field included unless it is the auto-generated `id`
key (then omitted from columns and from every row's values), with one
placeholder group per entity and the arguments bound positionally in
field order. -/
theorem C2_insert_shape (et : EntityType) (b : Backend) (e0 : GoEntity)
    (es : List GoEntity)
    (hcast : implementsEntity (methodSetPtr et.dyn) = true)
    (hone : (et.fields.filter fun f => decide (columnName f = "id")).length ≤ 1) :
    (SaveAll et b (e0 :: es)).1 =
      [⟨"INSERT INTO " ++ et.tableName ++ " ("
          ++ goJoin "," (specColumns et.fields) ++ ") VALUES "
          ++ goJoin "," (List.replicate (e0 :: es).length
              ("(" ++ goJoin "," (List.replicate (specColumns et.fields).length "?")
                ++ ")")),
        (e0 :: es).flatMap (specRowValues et.fields)⟩] := by
  rw [saveAll_trace et b (e0 :: es) (by simp) hcast]
  have hq : insertQuery et.tableName (scanFields et.fields).columns
      (scanFields et.fields).placeholders (e0 :: es).length
      = "INSERT INTO " ++ et.tableName ++ " ("
          ++ goJoin "," (specColumns et.fields) ++ ") VALUES "
          ++ goJoin "," (List.replicate (e0 :: es).length
              ("(" ++ goJoin "," (List.replicate (specColumns et.fields).length "?")
                ++ ")")) := by
    rw [(scan_columns et.fields).1, (scan_columns et.fields).2]
    have hl : (e0 :: es).length = es.length + 1 := by simp
    rw [hl, insertQuery_eq]
  have hrv : rowValues (scanFields et.fields).idAutoIncrement et.fields
      = specRowValues et.fields := by
    funext e
    exact rowValues_spec et.fields e _ (skip_iff_of_unique hone)
  simp only [saveAllStatement, hq, hrv]

/-- C2 witness: the synthesized INSERT for two sample entities. -/
theorem C2_insert_shape_witness :
    (SaveAll SampleEntityType (okBackend 5)
        [[.int 0, .str "test"], [.int 0, .str "test2"]]).1 =
      [⟨"INSERT INTO " ++ "sample_entities" ++ " ("
          ++ goJoin "," (specColumns SampleEntityType.fields) ++ ") VALUES "
          ++ goJoin "," (List.replicate 2
              ("(" ++ goJoin ","
                  (List.replicate (specColumns SampleEntityType.fields).length "?")
                ++ ")")),
        ([[GoValue.int 0, GoValue.str "test"], [GoValue.int 0, GoValue.str "test2"]]
          : List GoEntity).flatMap (specRowValues SampleEntityType.fields)⟩] :=
  C2_insert_shape SampleEntityType (okBackend 5) [.int 0, .str "test"]
    [[.int 0, .str "test2"]] (by decide) (by decide)

theorem idField_colname {fs : List GoField}
    (hnd : (fs.map GoField.fieldName).Nodup)
    (hauto : (scanFields fs).idAutoIncrement = true)
    {k : Nat} {f : GoField} (hf : fs[k]? = some f)
    (hfn : f.fieldName = (scanFields fs).idField.fieldName) :
    columnName f = "id" := by
  cases hg : lastIdState fs with
  | none =>
    have h1 := (scan_id fs).1
    rw [hg] at h1
    rw [h1] at hauto
    simp at hauto
  | some g =>
    have hgid := lastIdState_mem hg
    have hidf : (scanFields fs).idField = g := by
      rw [(scan_id fs).2, hg]
    have hfmem : f ∈ fs := List.getElem?_mem hf
    have hfeq : f = g :=
      List.inj_on_of_nodup_map hnd hfmem hgid.1 (by rw [hfn, hidf])
    rw [hfeq]
    exact hgid.2

/-- C9: a successful `SaveAll` mutates at most the key field (the field
whose storage name is `id`), and only when the key is auto-generated:
the output has one entity per input entity, the input is returned
untouched when the key is not auto-generated, and for every input entity
the output entity at the same position has the same number of fields and
carries exactly the caller-supplied value at every position other than an
auto-increment `id`-column field. -/
theorem C9_frame (et : EntityType) (b : Backend) (entities out : List GoEntity)
    (tr : List Statement)
    (hnd : (et.fields.map GoField.fieldName).Nodup)
    (h : SaveAll et b entities = (tr, .ok out)) :
    out.length = entities.length ∧
    ((scanFields et.fields).idAutoIncrement = false → out = entities) ∧
    (∀ (i : Nat) (e0 : GoEntity), entities[i]? = some e0 →
      ∃ e, out[i]? = some e ∧ e.length = e0.length ∧
        ∀ j : Nat,
          ¬((scanFields et.fields).idAutoIncrement = true ∧
            ∃ f, et.fields[j]? = some f ∧ columnName f = "id") →
          e[j]? = e0[j]?) := by
  by_cases hemp : entities.length = 0
  · rw [SaveAll, if_pos hemp] at h
    simp only [Prod.mk.injEq, Outcome.ok.injEq] at h
    rw [← h.2]
    exact ⟨rfl, fun _ => rfl, fun i e0 he0 => ⟨e0, he0, rfl, fun j _ => rfl⟩⟩
  · by_cases hcast : implementsEntity (methodSetPtr et.dyn) = true
    · cases hb : b.runExec (saveAllStatement et entities) with
      | error e =>
        rw [saveAll_exec_error et b entities e hemp hcast hb] at h
        simp at h
      | ok res =>
        by_cases hauto : (scanFields et.fields).idAutoIncrement = true
        · cases hlid : res.lastInsertId with
          | error e =>
            rw [saveAll_lid_error et b entities res e hemp hcast hb hauto hlid] at h
            simp at h
          | ok lid =>
            rw [saveAll_auto_eq et b entities res lid hemp hcast hb hauto hlid] at h
            cases hbf : backfillEntities (scanFields et.fields).idField.fieldName lid
                et.fields entities 0 with
            | ok out1 =>
              rw [hbf] at h
              simp only [Prod.mk.injEq, Outcome.ok.injEq] at h
              rw [← h.2]
              have hinv := backfill_ok_inv _ lid et.fields entities 0 out1 hbf
              refine ⟨hinv.1, ?_, ?_⟩
              · intro hfalse
                rw [hfalse] at hauto
                simp at hauto
              · intro i e0 he0
                have hilt : i < out1.length := by
                  rw [hinv.1]
                  exact (List.getElem?_eq_some.mp he0).choose
                cases ho : out1[i]? with
                | none =>
                  have := List.getElem?_eq_none_iff.mp ho
                  omega
                | some e =>
                  obtain ⟨e0', k, f, he0', hik, hf, hfn, hee⟩ := hinv.2 i e ho
                  have he00 : e0' = e0 := by
                    rw [he0] at he0'
                    injection he0' with hx
                    exact hx.symm
                  subst he00
                  refine ⟨e, rfl, by rw [hee]; simp, ?_⟩
                  intro j hj
                  by_cases hjk : j = k
                  · subst hjk
                    exact absurd ⟨hauto, f, hf, idField_colname hnd hauto hf hfn⟩ hj
                  · rw [hee]
                    exact List.getElem?_set_ne (fun hkj => hjk hkj.symm)
            | err m => rw [hbf] at h; simp at h
            | panic m => rw [hbf] at h; simp at h
        · have hauto2 : (scanFields et.fields).idAutoIncrement = false := by
            cases hx : (scanFields et.fields).idAutoIncrement
            · rfl
            · exact absurd hx hauto
          rw [saveAll_not_auto et b entities res hemp hcast hb hauto2] at h
          simp only [Prod.mk.injEq, Outcome.ok.injEq] at h
          rw [← h.2]
          exact ⟨rfl, fun _ => rfl, fun i e0 he0 => ⟨e0, he0, rfl, fun j _ => rfl⟩⟩
    · have hx : implementsEntity (methodSetPtr et.dyn) = false := by
        cases hv : implementsEntity (methodSetPtr et.dyn)
        · rfl
        · exact absurd hv hcast
      rw [saveAll_cast_fail et b entities hemp hx] at h
      simp at h

/-- C9 witness: the two-sided frame property at a concrete successful
`SaveAll`. -/
theorem C9_frame_witness :
    ([[GoValue.int 5, GoValue.str "t"]] : List GoEntity).length
        = ([[GoValue.int 0, GoValue.str "t"]] : List GoEntity).length ∧
    ((scanFields SampleEntityType.fields).idAutoIncrement = false →
      ([[GoValue.int 5, GoValue.str "t"]] : List GoEntity)
        = [[GoValue.int 0, GoValue.str "t"]]) ∧
    (∀ (i : Nat) (e0 : GoEntity),
      ([[GoValue.int 0, GoValue.str "t"]] : List GoEntity)[i]? = some e0 →
      ∃ e, ([[GoValue.int 5, GoValue.str "t"]] : List GoEntity)[i]? = some e ∧
        e.length = e0.length ∧
        ∀ j : Nat,
          ¬((scanFields SampleEntityType.fields).idAutoIncrement = true ∧
            ∃ f, SampleEntityType.fields[j]? = some f ∧ columnName f = "id") →
          e[j]? = e0[j]?) :=
  C9_frame SampleEntityType (okBackend 5) [[.int 0, .str "t"]]
    [[.int 5, .str "t"]] [saveAllStatement SampleEntityType [[.int 0, .str "t"]]]
    (by decide) (by decide)

/-- C1 counterexample: with the backend reporting first-inserted id
`2^63 - 1`, the second entity does not receive `firstAssignedID + 1`
(Go's `int64` addition wraps to `-2^63`), and the two assigned
identifiers are not strictly increasing. -/
theorem C1_counterexample :
    (SaveAll SampleEntityType (okBackend 9223372036854775807)
        [[.int 0, .str "a"], [.int 0, .str "b"]]).2 =
      .ok [[.int 9223372036854775807, .str "a"],
           [.int (-9223372036854775808), .str "b"]] ∧
    ¬((-9223372036854775808 : Int) = 9223372036854775807 + 1) ∧
    ¬((9223372036854775807 : Int) < (-9223372036854775808 : Int)) :=
  ⟨by decide, by decide, by decide⟩

/-- C1 (amended): on a non-empty list with an auto-generated key, a
successful `SaveAll` gives the entity at position `i` the identifier
`firstAssignedID + i` computed with Go's wrapping `int64` addition; when
no wrap occurs — `firstAssignedID ≥ -2^63` and
`firstAssignedID + N - 1 < 2^63` — this is exactly `firstAssignedID + i`,
so the `N` identifiers are consecutive and strictly increasing from the
backend's reported first-inserted id. -/
theorem C1_backfill (et : EntityType) (b : Backend) (entities : List GoEntity)
    (res : ExecResult) (lid : Int) (k : Nat)
    (hne : entities ≠ [])
    (hcast : implementsEntity (methodSetPtr et.dyn) = true)
    (hauto : (scanFields et.fields).idAutoIncrement = true)
    (hexec : b.runExec (saveAllStatement et entities) = .ok res)
    (hlid : res.lastInsertId = .ok lid)
    (hk : idIdx (scanFields et.fields).idField.fieldName et.fields = some k)
    (hgood : ∀ e ∈ entities, e.length = et.fields.length ∧
      ∃ v : Int, e[k]? = some (.int v)) :
    ∃ out, SaveAll et b entities = ([saveAllStatement et entities], .ok out) ∧
      out.length = entities.length ∧
      (∀ (i : Nat) (e : GoEntity), out[i]? = some e →
        e[k]? = some (.int (wrap64 (lid + i)))) ∧
      (-(2 ^ 63) ≤ lid → lid + entities.length ≤ 2 ^ 63 →
        ∀ (i : Nat) (e : GoEntity), out[i]? = some e →
          e[k]? = some (.int (lid + i))) := by
  obtain ⟨out, hbf, hlen, hj⟩ :=
    backfill_eq (scanFields et.fields).idField.fieldName lid et.fields k hk
      entities 0 hgood
  have hklt := (idIdx_getElem hk).1
  have hval : ∀ (i : Nat) (e : GoEntity), out[i]? = some e →
      e[k]? = some (.int (wrap64 (lid + i))) := by
    intro i e hi
    cases he0 : entities[i]? with
    | none =>
      have hni : out[i]? = none := by
        refine List.getElem?_eq_none ?_
        rw [hlen]
        exact List.getElem?_eq_none_iff.mp he0
      rw [hni] at hi
      cases hi
    | some e0 =>
      have hout := hj i e0 he0
      rw [hout] at hi
      injection hi with hi
      subst hi
      have he0mem : e0 ∈ entities := List.getElem?_mem he0
      have hke0 : k < e0.length := by
        rw [(hgood e0 he0mem).1]
        exact hklt
      rw [List.getElem?_set_self hke0]
      have hz : ((0 : Nat) : Int) + (i : Int) = (i : Int) := by simp
      rw [hz]
  refine ⟨out, ?_, hlen, hval, ?_⟩
  · rw [saveAll_auto_eq et b entities res lid (by simpa using hne) hcast hexec
      hauto hlid, hbf]
  · intro hlo hhi i e hi
    have hwrap := hval i e hi
    have hilt : i < entities.length := by
      rw [← hlen]
      exact (List.getElem?_eq_some.mp hi).choose
    have hself : wrap64 (lid + i) = lid + i := by
      refine wrap64_eq_self (by omega) ?_
      have : (i : Int) < (entities.length : Int) := by exact_mod_cast hilt
      omega
    rwa [hself] at hwrap

/-- C1 (amended) witness: two sample entities with reported first id 5
receive ids 5 and 6. -/
theorem C1_backfill_witness :
    ∃ out, SaveAll SampleEntityType (okBackend 5)
        [[.int 0, .str "a"], [.int 0, .str "b"]]
      = ([saveAllStatement SampleEntityType [[.int 0, .str "a"], [.int 0, .str "b"]]],
         .ok out) ∧
      out.length = ([[GoValue.int 0, GoValue.str "a"],
        [GoValue.int 0, GoValue.str "b"]] : List GoEntity).length ∧
      (∀ (i : Nat) (e : GoEntity), out[i]? = some e →
        e[0]? = some (.int (wrap64 (5 + i)))) ∧
      (-(2 ^ 63) ≤ (5 : Int) →
        (5 : Int) + ([[GoValue.int 0, GoValue.str "a"],
          [GoValue.int 0, GoValue.str "b"]] : List GoEntity).length ≤ 2 ^ 63 →
        ∀ (i : Nat) (e : GoEntity), out[i]? = some e →
          e[0]? = some (.int (5 + i))) :=
  C1_backfill SampleEntityType (okBackend 5)
    [[.int 0, .str "a"], [.int 0, .str "b"]] ⟨.ok 5⟩ 5 0
    (by decide) (by decide) (by decide) rfl rfl (by decide)
    (by
      intro e he
      rcases List.mem_cons.mp he with h1 | h1
      · subst h1; exact ⟨rfl, 0, rfl⟩
      · rcases List.mem_cons.mp h1 with h2 | h2
        · subst h2; exact ⟨rfl, 0, rfl⟩
        · cases h2)

/-- C10: the back-fill writes the assigned identifier through
`reflect.Value.SetInt`.  For entity types whose id field holds a signed
64-bit integer, `SaveAll` never panics, whatever the backend does; for an
entity type whose auto-generated id field is not a signed integer (here a
string), reaching the back-fill step panics instead of returning an
error. -/
theorem C10_setint_kind (et : EntityType) (b : Backend) (entities : List GoEntity)
    (k : Nat) :
    ((∀ e ∈ entities, e.length = et.fields.length) →
      ((scanFields et.fields).idAutoIncrement = true →
        idIdx (scanFields et.fields).idField.fieldName et.fields = some k ∧
        ∀ e ∈ entities, ∃ v : Int, e[k]? = some (.int v)) →
      (SaveAll et b entities).2.isPanic = false) ∧
    (∀ (e0 : GoEntity) (es : List GoEntity) (res : ExecResult) (lid : Int)
        (s : String),
      entities = e0 :: es →
      implementsEntity (methodSetPtr et.dyn) = true →
      (scanFields et.fields).idAutoIncrement = true →
      b.runExec (saveAllStatement et entities) = .ok res →
      res.lastInsertId = .ok lid →
      idIdx (scanFields et.fields).idField.fieldName et.fields = some k →
      e0.length = et.fields.length →
      e0[k]? = some (.str s) →
      (SaveAll et b entities).2
        = .panic "reflect: call of reflect.Value.SetInt on string Value") := by
  constructor
  · intro halign hk2
    by_cases hemp : entities.length = 0
    · rw [SaveAll, if_pos hemp]
      rfl
    · by_cases hcast : implementsEntity (methodSetPtr et.dyn) = true
      · cases hb : b.runExec (saveAllStatement et entities) with
        | error e =>
          rw [saveAll_exec_error et b entities e hemp hcast hb]
          rfl
        | ok res =>
          by_cases hauto : (scanFields et.fields).idAutoIncrement = true
          · cases hlid : res.lastInsertId with
            | error e =>
              rw [saveAll_lid_error et b entities res e hemp hcast hb hauto hlid]
              rfl
            | ok lid =>
              obtain ⟨hk, hints⟩ := hk2 hauto
              obtain ⟨out, hbf, _, _⟩ :=
                backfill_eq (scanFields et.fields).idField.fieldName lid
                  et.fields k hk entities 0
                  (fun e he => ⟨halign e he, hints e he⟩)
              rw [saveAll_auto_eq et b entities res lid hemp hcast hb hauto hlid,
                hbf]
              rfl
          · have hauto2 : (scanFields et.fields).idAutoIncrement = false := by
              cases hx : (scanFields et.fields).idAutoIncrement
              · rfl
              · exact absurd hx hauto
            rw [saveAll_not_auto et b entities res hemp hcast hb hauto2]
            rfl
      · have hx : implementsEntity (methodSetPtr et.dyn) = false := by
          cases hv : implementsEntity (methodSetPtr et.dyn)
          · rfl
          · exact absurd hv hcast
        rw [saveAll_cast_fail et b entities hemp hx]
        rfl
  · intro e0 es res lid s hent hcast hauto hexec hlid hk halign0 hv
    subst hent
    rw [saveAll_auto_eq et b (e0 :: es) res lid (by simp) hcast hexec hauto hlid]
    have hset := setIntFields_str (scanFields et.fields).idField.fieldName
      (lid + ((0 : Nat) : Int)) et.fields e0 k s hk hv halign0
    simp only [backfillEntities, hset]

/-- C10 witness: an integer-keyed sample entity never panics, while a
string-keyed entity with the same auto-increment tag panics at the
back-fill. -/
theorem C10_setint_kind_witness :
    (SaveAll SampleEntityType (okBackend 5) [[.int 0, .str "t"]]).2.isPanic
        = false ∧
    (SaveAll SampleEntityType (okBackend 7) [[.str "bad", .str "t"]]).2
      = .panic "reflect: call of reflect.Value.SetInt on string Value" :=
  ⟨(C10_setint_kind SampleEntityType (okBackend 5) [[.int 0, .str "t"]] 0).1
      (by
        intro e he
        rcases List.mem_cons.mp he with h1 | h1
        · subst h1; rfl
        · cases h1)
      (fun _ =>
        ⟨by decide, by
          intro e he
          rcases List.mem_cons.mp he with h1 | h1
          · subst h1; exact ⟨0, rfl⟩
          · cases h1⟩),
   (C10_setint_kind SampleEntityType (okBackend 7) [[.str "bad", .str "t"]] 0).2
      [.str "bad", .str "t"] [] ⟨.ok 7⟩ 7 "bad" rfl (by decide) (by decide)
      rfl rfl (by decide) rfl rfl⟩

end SqlRepo

